import Mathlib

/-!
Verification of the data-cleaning pipeline in `file2.py` of the
Data-Cleaning-Lab-I repository.

The repository defines two orchestration entry points,
`college_train_test` and `job_train_test`, each of which loads a tabular
dataset, derives a binary target from the median of a designated outcome
column, removes leakage columns, routes columns into numeric/categorical
sets, splits rows into stratified train/test partitions, fits an
imputation + scaling / imputation + one-hot preprocessor on the training
partition and applies it to the test partition.

The repository's own lines (`src/file2.py`) are embedded directly.  The
library operations it calls (pandas `to_numeric`, `dropna`, `median`,
column access and `drop`; sklearn `train_test_split`, `SimpleImputer`,
`StandardScaler`, `OneHotEncoder`) are not part of the repository's
sources, so they are modelled from the specification's description of
each component (the `Modelled from the spec:` doc comments below).
Numeric cell values are embedded as rationals.
-/

/-- A cell of a tabular dataset: a number, a piece of text, or missing. -/
inductive Value where
  | num (q : ℚ)
  | str (s : String)
  | na
deriving DecidableEq

/-- A record: a total mapping from column name to cell value.  Only the
columns listed in the enclosing frame are meaningful. -/
abbrev Row := String → Value

/-- A dataset: a column list plus an ordered sequence of records. -/
structure Frame where
  cols : List String
  rows : List Row

/-- Errors a pipeline invocation can abort with.  `config` models the
ValueError raised by `job_train_test` when the salary column is absent
(it carries the column name, since the message names the column);
`attributeError` models the spec's AttributeError-class failure of an
unguarded access to a missing column; `arithUndefined` models the
spec's Arithmetic/Undefined failure of a median with no valid values;
`strat` models the Splitter's Stratification failure. -/
inductive PErr where
  | config (col : String)
  | attributeError (col : String)
  | arithUndefined
  | strat
deriving DecidableEq

/-- Modelled from the spec: pandas numeric coercion of one cell
(`pd.to_numeric(..., errors="coerce")`): numbers stay numbers,
parseable text becomes a number, unparseable text and missing values
become missing.  Text parsing is modelled by integer parsing. -/
def toNumericV : Value → Value
  | Value.num q => Value.num q
  | Value.str s => match s.toInt? with
      | some n => Value.num (n : ℚ)
      | none => Value.na
  | Value.na => Value.na

/-- Modelled from the spec: pandas column access `df[c]`; a missing
column is an AttributeError-class failure (unguarded access). -/
def getColE (f : Frame) (c : String) : Except PErr (List Value) :=
  if c ∈ f.cols then Except.ok (f.rows.map (fun r => r c))
  else Except.error (PErr.attributeError c)

/-- Modelled from the spec: pandas column assignment
`df[c] = pd.to_numeric(df[c], errors="coerce")`; reading a missing
column is an AttributeError-class failure. -/
def coerceCol (f : Frame) (c : String) : Except PErr Frame :=
  if c ∈ f.cols then
    Except.ok ⟨f.cols, f.rows.map (fun r d => if d = c then toNumericV (r c) else r d)⟩
  else Except.error (PErr.attributeError c)

/-- Modelled from the spec: `df.dropna(subset=[c])` — silently drop the
records whose value in column `c` is missing. -/
def dropnaCol (f : Frame) (c : String) : Frame :=
  ⟨f.cols, f.rows.filter (fun r => decide (r c ≠ Value.na))⟩

/-- Modelled from the spec: `df.drop(columns=cs, errors="ignore")` —
best-effort removal, absent columns are silently tolerated. -/
def dropColsList (f : Frame) (cs : List String) : Frame :=
  ⟨f.cols.filter (fun c => decide (c ∉ cs)), f.rows⟩

/-- Set (or overwrite) column `lab`, computing each record's new value
from the record itself.  Models pandas `df[lab] = expr(df)`. -/
def setColByRow (f : Frame) (lab : String) (g : Row → Value) : Frame :=
  ⟨if lab ∈ f.cols then f.cols else f.cols ++ [lab],
   f.rows.map (fun r d => if d = lab then g r else r d)⟩

/-- The rational carried by a numeric cell, `0` otherwise. -/
def qOf : Value → ℚ
  | Value.num q => q
  | _ => 0

/-- The rational carried by a numeric cell, if any. -/
def toQ? : Value → Option ℚ
  | Value.num q => some q
  | _ => none

/-- Insert into a sorted list of rationals. -/
def insertSorted (q : ℚ) : List ℚ → List ℚ
  | [] => [q]
  | x :: xs => if q ≤ x then q :: x :: xs else x :: insertSorted q xs

/-- Insertion sort of rationals. -/
def sortQ : List ℚ → List ℚ
  | [] => []
  | x :: xs => insertSorted x (sortQ xs)

/-- Modelled from the spec: the median statistic — middle element of the
sorted values for odd length, mean of the two middle elements for even
length; undefined (`none`) when there are no valid values. -/
def med? (l : List ℚ) : Option ℚ :=
  let s := sortQ l
  let n := s.length
  if n = 0 then none
  else if n % 2 = 1 then some (s.getD (n / 2) 0)
  else some ((s.getD (n / 2 - 1) 0 + s.getD (n / 2) 0) / 2)

/-- Arithmetic mean of a list of rationals (`0` for the empty list). -/
def meanQ (l : List ℚ) : ℚ := l.sum / l.length

/-- Population variance of a list of rationals. -/
def varQ (l : List ℚ) : ℚ := ((l.map (fun x => (x - meanQ l) ^ 2)).sum) / l.length

/-- Occurrences of `v` in `l`. -/
def countV (l : List Value) (v : Value) : Nat := l.countP (fun x => decide (x = v))

/-- Modelled from the spec: the most-frequent value of a list (the
categorical imputation statistic); the first value attaining the
maximal count wins, `Value.na` for the empty list. -/
def mostFrequent (l : List Value) : Value :=
  l.dedup.foldl (fun best v => if countV l best < countV l v then v else best) Value.na

/-- Fitted state of the Numeric Transformer for one column:
imputation median, post-imputation mean, and the scaling divisor.
Modelled from the spec: sklearn `SimpleImputer(strategy="median")`
followed by `StandardScaler`.  The standard deviation is the square
root of the variance; since square roots are not rational, the model
uses the variance itself as the divisor — it is zero exactly when the
standard deviation is zero, the only property the zero-scale guard
depends on — and replaces a zero divisor by the no-op scale `1`. -/
structure NumFit where
  impute : ℚ
  mean : ℚ
  scale : ℚ
deriving DecidableEq

/-- Fitted state of the Categorical Transformer for one column:
imputation mode and fit-time category vocabulary, in fit-time order.
Modelled from the spec: sklearn `SimpleImputer(strategy="most_frequent")`
followed by `OneHotEncoder(handle_unknown="ignore")`. -/
structure CatFit where
  mode : Value
  vocab : List Value
deriving DecidableEq

/-- The post-imputation training values of a numeric column. -/
def imputedNum (vs : List Value) : List ℚ :=
  let imp := (med? (vs.filterMap toQ?)).getD 0
  vs.map (fun v => (toQ? v).getD imp)

/-- Fit the Numeric Transformer on one training column. -/
def numFitOf (vs : List Value) : NumFit :=
  let imp := (med? (vs.filterMap toQ?)).getD 0
  let iv := imputedNum vs
  ⟨imp, meanQ iv, if varQ iv = 0 then 1 else varQ iv⟩

/-- Apply the fitted Numeric Transformer to one cell: impute the
fit-time median for missing values, centre by the fit-time mean and
divide by the fit-time scale. -/
def numTransform (nf : NumFit) (v : Value) : ℚ :=
  (((toQ? v).getD nf.impute) - nf.mean) / nf.scale

/-- Fit the Categorical Transformer on one training column: mode of the
non-missing values, then vocabulary of distinct post-imputation values. -/
def catFitOf (vs : List Value) : CatFit :=
  let m := mostFrequent (vs.filter (fun v => decide (v ≠ Value.na)))
  ⟨m, (vs.map (fun v => if v = Value.na then m else v)).dedup⟩

/-- Apply the fitted Categorical Transformer to one cell: impute the
fit-time mode for missing values, then emit one indicator per fit-time
vocabulary entry; a value outside the vocabulary yields all zeros. -/
def catTransform (cf : CatFit) (v : Value) : List ℚ :=
  let w := if v = Value.na then cf.mode else v
  cf.vocab.map (fun c => if w = c then (1 : ℚ) else 0)

/-- Fitted state of the whole preprocessor: per numeric column and per
categorical column, the column name with its fitted transformer. -/
structure FitState where
  numFits : List (String × NumFit)
  catFits : List (String × CatFit)

/-- Modelled from the spec: `ColumnTransformer` fit on the training
partition — each routed column gets its transformer fitted on the
training values of that column. -/
def fitPre (train : Frame) (numCols catCols : List String) : FitState :=
  ⟨numCols.map (fun c => (c, numFitOf (train.rows.map (fun r => r c)))),
   catCols.map (fun c => (c, catFitOf (train.rows.map (fun r => r c))))⟩

/-- Transform one record into a numeric feature row: scaled numeric
entries followed by the one-hot indicator blocks. -/
def transformRow (st : FitState) (r : Row) : List ℚ :=
  st.numFits.map (fun p => numTransform p.2 (r p.1)) ++
    (st.catFits.map (fun p => catTransform p.2 (r p.1))).flatten

/-- Transform every record of a frame. -/
def transformFrame (st : FitState) (f : Frame) : List (List ℚ) :=
  f.rows.map (fun r => transformRow st r)

/-- Number of entries of every transformed row: one per numeric column
plus one per vocabulary entry of each categorical column. -/
def rowWidth (st : FitState) : Nat :=
  st.numFits.length + ((st.catFits.map (fun p => p.2.vocab.length)).sum)

/-- The Type Router's numeric test: a column is numeric when every cell
is a number or missing.  Modelled from the spec: classifies a column
numeric if its values are uniformly numeric type, else categorical. -/
def isNumericColumn (vs : List Value) : Bool :=
  vs.all (fun v => match v with
    | Value.num _ => true
    | Value.na => true
    | Value.str _ => false)

/-- Modelled from the spec: the Splitter (sklearn `train_test_split`
with `stratify=y`) — fails with a Stratification error when the label
has fewer than 2 distinct classes; otherwise deterministically
partitions the row indices class by class, rotating each class's
index list by the seed and sending a `testSize` fraction (rounded up)
of each class to the test partition. -/
def stratifiedSplit (testSize : ℚ) (seed : Nat) (y : List Value) :
    Except PErr (List Nat × List Nat) :=
  let classes := y.dedup
  if classes.length < 2 then Except.error PErr.strat
  else
    let pick := fun (c : Value) =>
      let idxs := (y.enum.filter (fun p => decide (p.2 = c))).map (fun p => p.1)
      let k := (testSize * idxs.length).ceil.toNat
      let rot := idxs.rotate (seed % (idxs.length + 1))
      (rot.take k, rot.drop k)
    Except.ok
      ((classes.map (fun c => (pick c).2)).flatten,
       (classes.map (fun c => (pick c).1)).flatten)

/-- Select the rows of a frame at the given indices, in order. -/
def selectRows (f : Frame) (idxs : List Nat) : Frame :=
  ⟨f.cols, idxs.filterMap (fun i => f.rows.get? i)⟩

/-- Select the entries of a list at the given indices, in order. -/
def selectIdx (y : List Value) (idxs : List Nat) : List Value :=
  idxs.filterMap (fun i => y.get? i)

/-- What a pipeline invocation returns: train/test feature matrices and
the row-aligned label vectors. -/
structure PipeResult where
  trainX : List (List ℚ)
  testX : List (List ℚ)
  yTrain : List Value
  yTest : List Value
deriving DecidableEq

/-- Shared tail of both orchestrations (`file2.py` steps 7–10): route
column types on the full feature frame, split rows with stratification,
fit the preprocessor on the training partition only, transform both
partitions. -/
def splitAndTransform (X : Frame) (y : List Value) (testSize : ℚ) (seed : Nat) :
    Except PErr PipeResult := do
  let numCols := X.cols.filter (fun c => isNumericColumn (X.rows.map (fun r => r c)))
  let catCols := X.cols.filter (fun c => !isNumericColumn (X.rows.map (fun r => r c)))
  let (trainIdx, testIdx) ← stratifiedSplit testSize seed y
  let xtr := selectRows X trainIdx
  let xte := selectRows X testIdx
  let st := fitPre xtr numCols catCols
  Except.ok ⟨transformFrame st xtr, transformFrame st xte,
             selectIdx y trainIdx, selectIdx y testIdx⟩

/-- The Target Deriver (`file2.py` lines 24–31 and 107–114): coerce the
outcome column to numeric, drop records with missing outcome, compute
the median cutoff over the remaining full pre-split records, and set
the binary label — `1` exactly when the outcome is strictly greater
than the cutoff. -/
def deriveTarget (df : Frame) (outcome lab : String) : Except PErr Frame := do
  let d1 ← coerceCol df outcome
  let d2 := dropnaCol d1 outcome
  match med? (d2.rows.filterMap (fun r => toQ? (r outcome))) with
  | none => Except.error PErr.arithUndefined
  | some cutoff =>
      Except.ok (setColByRow d2 lab
        (fun r => Value.num (if cutoff < qOf (r outcome) then 1 else 0)))

/-- The fixed identifier/leakage drop list of the college pipeline
(`file2.py` lines 36–41). -/
def collegeDropCols : List String :=
  ["index", "unitid", "chronname", "site", "nicknames", "similar",
   "grad_150_value",
   "grad_100_value", "retain_value",
   "grad_100_percentile", "retain_percentile", "grad_150_percentile"]

/-- College pipeline, steps 2–6 (`file2.py` lines 24–46): derive the
target, remove the fixed drop list, and split off features and label. -/
def collegeFeatures (df : Frame) : Except PErr (Frame × List Value) := do
  let d ← deriveTarget df "grad_150_value" "high_grad_150"
  let d := dropColsList d collegeDropCols
  let y ← getColE d "high_grad_150"
  let x := dropColsList d ["high_grad_150"]
  Except.ok (x, y)

/-- The college orchestration entry point (`file2.py` lines 9–82),
on an already-loaded frame (CSV input is out of scope). -/
def college_train_test (df : Frame) (testSize : ℚ) (seed : Nat) :
    Except PErr PipeResult := do
  let (x, y) ← collegeFeatures df
  splitAndTransform x y testSize seed

/-- Modelled from the spec: Python `str.lower()`, lowercasing each
character of the name. -/
def lowerStr (s : String) : String := ⟨s.data.map Char.toLower⟩

/-- The job pipeline's dynamic drop rule (`file2.py` lines 119–121):
every column whose lowercased name is exactly `status` or `placed`. -/
def jobDynamicDrops (cols : List String) : List String :=
  cols.filter (fun c => decide (lowerStr c = "status" ∨ lowerStr c = "placed"))

/-- Job pipeline, steps 2–6 (`file2.py` lines 104–127): guard that the
salary column exists (a Configuration error naming it otherwise),
derive the target, remove the salary column and the dynamic drops, and
split off features and label. -/
def jobFeatures (salary_col : String) (df : Frame) :
    Except PErr (Frame × List Value) := do
  if salary_col ∈ df.cols then
    let d ← deriveTarget df salary_col "above_median_salary"
    let d := dropColsList d (salary_col :: jobDynamicDrops d.cols)
    let y ← getColE d "above_median_salary"
    let x := dropColsList d ["above_median_salary"]
    Except.ok (x, y)
  else Except.error (PErr.config salary_col)

/-- The job orchestration entry point (`file2.py` lines 85–162),
on an already-loaded frame (CSV input is out of scope). -/
def job_train_test (df : Frame) (salary_col : String) (testSize : ℚ) (seed : Nat) :
    Except PErr PipeResult := do
  let (x, y) ← jobFeatures salary_col df
  splitAndTransform x y testSize seed

/-- `true` exactly on a successful pipeline-stage result. -/
def okB {α : Type} : Except PErr α → Bool
  | Except.ok _ => true
  | Except.error _ => false

/-- The label vector of a successful features stage, `[]` on failure. -/
def labelsOfF : Except PErr (Frame × List Value) → List Value
  | Except.ok p => p.2
  | Except.error _ => []

/-- The feature-frame column set of a successful features stage. -/
def featColsOf : Except PErr (Frame × List Value) → List String
  | Except.ok p => p.1.cols
  | Except.error _ => []

/-- The records of a successful Target Deriver result, `[]` on failure. -/
def rowsOfE : Except PErr Frame → List Row
  | Except.ok d => d.rows
  | Except.error _ => []

/-- Train rows followed by test rows of a successful pipeline call. -/
def matricesOf : Except PErr PipeResult → List (List ℚ)
  | Except.ok r => r.trainX ++ r.testX
  | Except.error _ => []

/-- `true` when all rows of a matrix have the same number of entries. -/
def allEqLengths : List (List ℚ) → Bool
  | [] => true
  | r :: rs => rs.all (fun s => s.length == r.length)

/-- The full pre-split dataset as the Target Deriver sees it when the
cutoff is computed: outcome column coerced to numeric, records with
missing outcome dropped.  No splitting has happened yet. -/
def preSplitFrame (df : Frame) (out : String) : Frame :=
  dropnaCol ⟨df.cols, df.rows.map (fun r d => if d = out then toNumericV (r out) else r d)⟩ out

/-- The outcome values of the full pre-split dataset, the sample the
median cutoff is computed from. -/
def preSplitVals (df : Frame) (out : String) : List ℚ :=
  (preSplitFrame df out).rows.filterMap (fun r => toQ? (r out))

/-- The median with default `0`, for stating the cutoff. -/
def medD (l : List ℚ) : ℚ := (med? l).getD 0

/-- Build a record from an association list (unlisted columns are
missing), for concrete test datasets. -/
def mkRow (l : List (String × Value)) : Row := fun c =>
  match l.find? (fun p => p.1 = c) with
  | some p => p.2
  | none => Value.na

/-- Concrete college dataset: four records, two label classes, one
numeric feature with a missing value, one categorical feature with a
test-only category. -/
def dfCollege : Frame :=
  ⟨["grad_150_value", "x", "city"],
   [mkRow [("grad_150_value", Value.num 1), ("x", Value.num 10), ("city", Value.str "a")],
    mkRow [("grad_150_value", Value.num 1), ("x", Value.num 20), ("city", Value.str "b")],
    mkRow [("grad_150_value", Value.num 2), ("x", Value.num 30), ("city", Value.str "a")],
    mkRow [("grad_150_value", Value.num 3), ("x", Value.num 40), ("city", Value.str "b")],
    mkRow [("grad_150_value", Value.num 3), ("x", Value.na), ("city", Value.na)]]⟩

/-- Concrete job dataset: three records, two label classes, a column
named exactly `Status` and a column merely containing `status`. -/
def dfJob : Frame :=
  ⟨["salary", "placement_status", "Status", "gpa"],
   [mkRow [("salary", Value.num 1), ("placement_status", Value.str "p"),
           ("Status", Value.str "y"), ("gpa", Value.num 3)],
    mkRow [("salary", Value.num 2), ("placement_status", Value.str "q"),
           ("Status", Value.str "n"), ("gpa", Value.num 2)],
    mkRow [("salary", Value.num 5), ("placement_status", Value.str "p"),
           ("Status", Value.str "y"), ("gpa", Value.num 4)]]⟩

/-- Concrete college dataset whose outcome values are all equal, so the
derived label has a single class. -/
def dfCollegeOne : Frame :=
  ⟨["grad_150_value", "x"],
   [mkRow [("grad_150_value", Value.num 2), ("x", Value.num 10)],
    mkRow [("grad_150_value", Value.num 2), ("x", Value.num 20)],
    mkRow [("grad_150_value", Value.num 2), ("x", Value.num 30)]]⟩

/-- Concrete job dataset whose salaries are all equal, so the derived
label has a single class. -/
def dfJobOne : Frame :=
  ⟨["salary"],
   [mkRow [("salary", Value.num 1)], mkRow [("salary", Value.num 1)],
    mkRow [("salary", Value.num 1)]]⟩

/-- Concrete dataset lacking both pipelines' outcome columns. -/
def dfNoOut : Frame :=
  ⟨["x"], [mkRow [("x", Value.num 1)]]⟩

theorem okB_eq_true {α : Type} (e : Except PErr α) : okB e = true ↔ ∃ a, e = Except.ok a := by
  cases e <;> simp [okB]

theorem toNumericV_num_or_na (v : Value) :
    toNumericV v = Value.na ∨ ∃ q, toNumericV v = Value.num q := by
  cases v with
  | num q => exact Or.inr ⟨q, rfl⟩
  | na => exact Or.inl rfl
  | str s =>
      simp only [toNumericV]
      cases h : s.toInt? with
      | none => simp [h]
      | some n => simp [h]

theorem filterMap_eq_map_of_mem {α β : Type} {l : List α} {f : α → Option β} {g : α → β}
    (h : ∀ a ∈ l, f a = some (g a)) : l.filterMap f = l.map g := by
  induction l with
  | nil => rfl
  | cons a t ih =>
      rw [List.filterMap_cons, h a (List.mem_cons_self a t), List.map_cons,
        ih (fun b hb => h b (List.mem_cons_of_mem a hb))]

theorem preSplitFrame_cols (df : Frame) (out : String) :
    (preSplitFrame df out).cols = df.cols := rfl

theorem mem_preSplit_num (df : Frame) (out : String) :
    ∀ r ∈ (preSplitFrame df out).rows, ∃ q, r out = Value.num q := by
  intro r hr
  unfold preSplitFrame dropnaCol at hr
  simp only [List.mem_filter, List.mem_map] at hr
  obtain ⟨⟨r0, _, hr0⟩, hna⟩ := hr
  have hro : r out = toNumericV (r0 out) := by
    rw [← hr0]; simp
  rcases toNumericV_num_or_na (r0 out) with h | ⟨q, h⟩
  · rw [h] at hro
    rw [decide_eq_true_eq] at hna
    exact absurd hro hna
  · exact ⟨q, by rw [hro, h]⟩

theorem preSplitVals_eq_map (df : Frame) (out : String) :
    preSplitVals df out = (preSplitFrame df out).rows.map (fun r => qOf (r out)) := by
  unfold preSplitVals
  apply filterMap_eq_map_of_mem
  intro r hr
  obtain ⟨q, hq⟩ := mem_preSplit_num df out r hr
  rw [hq]; rfl

theorem setColByRow_rows (f : Frame) (lab : String) (g : Row → Value) :
    (setColByRow f lab g).rows = f.rows.map (fun r d => if d = lab then g r else r d) := rfl

theorem mem_setColByRow_cols (f : Frame) (lab : String) (g : Row → Value) :
    lab ∈ (setColByRow f lab g).cols := by
  unfold setColByRow
  by_cases h : lab ∈ f.cols
  · simp [h]
  · simp [h]

theorem mem_setColByRow_cols_of_mem (f : Frame) (lab c : String) (g : Row → Value)
    (h : c ∈ f.cols) : c ∈ (setColByRow f lab g).cols := by
  unfold setColByRow
  by_cases hm : lab ∈ f.cols
  · simpa [hm]
  · simp [hm, List.mem_append]
    exact Or.inl h

theorem mem_dropColsList_cols (f : Frame) (cs : List String) (c : String) :
    c ∈ (dropColsList f cs).cols ↔ c ∈ f.cols ∧ c ∉ cs := by
  unfold dropColsList
  simp [List.mem_filter]

theorem dropColsList_rows (f : Frame) (cs : List String) :
    (dropColsList f cs).rows = f.rows := rfl

theorem getColE_of_mem (f : Frame) (c : String) (h : c ∈ f.cols) :
    getColE f c = Except.ok (f.rows.map (fun r => r c)) := by
  simp [getColE, h]

theorem exceptBind_ok {α β : Type} (a : α) (f : α → Except PErr β) :
    (Except.ok a >>= f) = f a := rfl

theorem exceptBind_error {α β : Type} (e : PErr) (f : α → Except PErr β) :
    ((Except.error e : Except PErr α) >>= f) = Except.error e := rfl

theorem deriveTarget_ok_elim {df : Frame} {out lab : String} {d' : Frame}
    (h : deriveTarget df out lab = Except.ok d') :
    out ∈ df.cols ∧ (med? (preSplitVals df out)).isSome = true ∧
      d' = setColByRow (preSplitFrame df out) lab
             (fun r => Value.num (if medD (preSplitVals df out) < qOf (r out) then 1 else 0)) := by
  by_cases hm : out ∈ df.cols
  · unfold deriveTarget coerceCol at h
    simp only [hm, if_true, exceptBind_ok] at h
    cases hmed : med? (List.filterMap (fun r => toQ? (r out))
        (dropnaCol (⟨df.cols, df.rows.map (fun r d => if d = out then toNumericV (r out) else r d)⟩ : Frame) out).rows) with
    | none => rw [hmed] at h; exact absurd h (by simp)
    | some cutoff =>
        rw [hmed] at h
        simp only [Except.ok.injEq] at h
        have hmed2 : med? (preSplitVals df out) = some cutoff := hmed
        have hmd : medD (preSplitVals df out) = cutoff := by
          unfold medD; rw [hmed2]; rfl
        refine ⟨hm, by rw [hmed2]; rfl, ?_⟩
        rw [hmd]
        exact h.symm
  · unfold deriveTarget coerceCol at h
    simp only [hm, if_false, exceptBind_error] at h
    exact absurd h (by simp)

theorem collegeFeatures_ok_elim {df : Frame} {x : Frame} {y : List Value}
    (h : collegeFeatures df = Except.ok (x, y)) :
    ∃ d', deriveTarget df "grad_150_value" "high_grad_150" = Except.ok d' ∧
      x = dropColsList (dropColsList d' collegeDropCols) ["high_grad_150"] ∧
      y = (dropColsList d' collegeDropCols).rows.map (fun r => r "high_grad_150") := by
  unfold collegeFeatures at h
  cases hd : deriveTarget df "grad_150_value" "high_grad_150" with
  | error e => rw [hd, exceptBind_error] at h; exact absurd h (by simp)
  | ok d' =>
      rw [hd, exceptBind_ok] at h
      have hmem : "high_grad_150" ∈ (dropColsList d' collegeDropCols).cols := by
        rw [mem_dropColsList_cols]
        refine ⟨?_, by decide⟩
        have := (deriveTarget_ok_elim hd).2.2
        rw [this]
        exact mem_setColByRow_cols _ _ _
      dsimp only at h
      rw [getColE_of_mem _ _ hmem, exceptBind_ok] at h
      simp only [Except.ok.injEq, Prod.mk.injEq] at h
      exact ⟨d', rfl, h.1.symm, h.2.symm⟩

theorem jobDynamicDrops_not_mem_label (cs : List String) :
    "above_median_salary" ∉ jobDynamicDrops cs := by
  intro hmem
  unfold jobDynamicDrops at hmem
  rw [List.mem_filter] at hmem
  exact absurd hmem.2 (by decide)

theorem jobFeatures_ok_elim {df : Frame} {sc : String} {x : Frame} {y : List Value}
    (h : jobFeatures sc df = Except.ok (x, y)) :
    sc ∈ df.cols ∧ sc ≠ "above_median_salary" ∧
    ∃ d', deriveTarget df sc "above_median_salary" = Except.ok d' ∧
      x = dropColsList (dropColsList d' (sc :: jobDynamicDrops d'.cols)) ["above_median_salary"] ∧
      y = (dropColsList d' (sc :: jobDynamicDrops d'.cols)).rows.map
            (fun r => r "above_median_salary") := by
  unfold jobFeatures at h
  by_cases hm : sc ∈ df.cols
  · simp only [hm, if_true] at h
    cases hd : deriveTarget df sc "above_median_salary" with
    | error e => rw [hd, exceptBind_error] at h; exact absurd h (by simp)
    | ok d' =>
        rw [hd, exceptBind_ok] at h
        by_cases hsl : sc = "above_median_salary"
        · have hnmem : "above_median_salary" ∉ (dropColsList d' (sc :: jobDynamicDrops d'.cols)).cols := by
            rw [mem_dropColsList_cols]
            intro hc
            exact hc.2 (by rw [hsl]; exact List.mem_cons_self _ _)
          rw [getColE] at h
          rw [if_neg hnmem, exceptBind_error] at h
          exact absurd h (by simp)
        · have hmem : "above_median_salary" ∈ (dropColsList d' (sc :: jobDynamicDrops d'.cols)).cols := by
            rw [mem_dropColsList_cols]
            constructor
            · have := (deriveTarget_ok_elim hd).2.2
              rw [this]
              exact mem_setColByRow_cols _ _ _
            · intro hc
              rcases List.mem_cons.mp hc with hc | hc
              · exact hsl hc.symm
              · exact jobDynamicDrops_not_mem_label _ hc
          rw [getColE_of_mem _ _ hmem, exceptBind_ok] at h
          simp only [Except.ok.injEq, Prod.mk.injEq] at h
          exact ⟨hm, hsl, d', rfl, h.1.symm, h.2.symm⟩
  · simp only [hm, if_false] at h
    exact absurd h (by simp)
theorem labels_of_setCol (df : Frame) (out lab : String) :
    ((setColByRow (preSplitFrame df out) lab
        (fun r => Value.num (if medD (preSplitVals df out) < qOf (r out) then 1 else 0))).rows.map
      (fun r => r lab))
    = (preSplitVals df out).map
        (fun q => Value.num (if medD (preSplitVals df out) < q then 1 else 0)) := by
  rw [setColByRow_rows, List.map_map, preSplitVals_eq_map, List.map_map]
  apply List.map_congr_left
  intro r _
  simp

/-- The cutoff of each pipeline is the median of the designated outcome
column over the full pre-split dataset (records with missing outcome
dropped), and each surviving record is labelled 1 exactly when its
outcome value is strictly greater than that cutoff (a value equal to
the cutoff gets 0). -/
theorem cutoff_is_presplit_median_and_label_strict :
    (∀ df : Frame, okB (collegeFeatures df) = true →
        (med? (preSplitVals df "grad_150_value")).isSome = true ∧
        labelsOfF (collegeFeatures df) =
          (preSplitVals df "grad_150_value").map
            (fun q => Value.num
              (if medD (preSplitVals df "grad_150_value") < q then 1 else 0)))
  ∧ (∀ (df : Frame) (sc : String), okB (jobFeatures sc df) = true →
        (med? (preSplitVals df sc)).isSome = true ∧
        labelsOfF (jobFeatures sc df) =
          (preSplitVals df sc).map
            (fun q => Value.num (if medD (preSplitVals df sc) < q then 1 else 0))) := by
  constructor
  · intro df hok
    obtain ⟨⟨x, y⟩, hp⟩ := (okB_eq_true _).mp hok
    obtain ⟨d', hd, hx, hy⟩ := collegeFeatures_ok_elim hp
    obtain ⟨hm, hsome, hset⟩ := deriveTarget_ok_elim hd
    refine ⟨hsome, ?_⟩
    rw [hp]
    show y = _
    rw [hy, dropColsList_rows, hset, labels_of_setCol]
  · intro df sc hok
    obtain ⟨⟨x, y⟩, hp⟩ := (okB_eq_true _).mp hok
    obtain ⟨hmc, hsl, d', hd, hx, hy⟩ := jobFeatures_ok_elim hp
    obtain ⟨hm, hsome, hset⟩ := deriveTarget_ok_elim hd
    refine ⟨hsome, ?_⟩
    rw [hp]
    show y = _
    rw [hy, dropColsList_rows, hset, labels_of_setCol]

/-- The cutoff/label theorem applied to concrete datasets. -/
theorem cutoff_is_presplit_median_and_label_strict_witness :
    (okB (collegeFeatures dfCollege) = true ∧
      labelsOfF (collegeFeatures dfCollege) =
        (preSplitVals dfCollege "grad_150_value").map
          (fun q => Value.num
            (if medD (preSplitVals dfCollege "grad_150_value") < q then 1 else 0)))
    ∧ (okB (jobFeatures "salary" dfJob) = true ∧
      labelsOfF (jobFeatures "salary" dfJob) =
        (preSplitVals dfJob "salary").map
          (fun q => Value.num (if medD (preSplitVals dfJob "salary") < q then 1 else 0))) :=
  ⟨⟨by decide, (cutoff_is_presplit_median_and_label_strict.1 dfCollege (by decide)).2⟩,
   ⟨by decide, (cutoff_is_presplit_median_and_label_strict.2 dfJob "salary" (by decide)).2⟩⟩
theorem collegeFeatures_ok_of_target_ok {df : Frame} {d' : Frame}
    (hd : deriveTarget df "grad_150_value" "high_grad_150" = Except.ok d') :
    collegeFeatures df =
      Except.ok (dropColsList (dropColsList d' collegeDropCols) ["high_grad_150"],
        (dropColsList d' collegeDropCols).rows.map (fun r => r "high_grad_150")) := by
  have hmem : "high_grad_150" ∈ (dropColsList d' collegeDropCols).cols := by
    rw [mem_dropColsList_cols]
    refine ⟨?_, by decide⟩
    have := (deriveTarget_ok_elim hd).2.2
    rw [this]
    exact mem_setColByRow_cols _ _ _
  unfold collegeFeatures
  rw [hd, exceptBind_ok]
  dsimp only
  rw [getColE_of_mem _ _ hmem, exceptBind_ok]

theorem jobFeatures_ok_of_target_ok {df : Frame} {sc : String} {d' : Frame}
    (hsl : sc ≠ "above_median_salary") (hm : sc ∈ df.cols)
    (hd : deriveTarget df sc "above_median_salary" = Except.ok d') :
    jobFeatures sc df =
      Except.ok (dropColsList (dropColsList d' (sc :: jobDynamicDrops d'.cols))
          ["above_median_salary"],
        (dropColsList d' (sc :: jobDynamicDrops d'.cols)).rows.map
          (fun r => r "above_median_salary")) := by
  have hmem : "above_median_salary" ∈ (dropColsList d' (sc :: jobDynamicDrops d'.cols)).cols := by
    rw [mem_dropColsList_cols]
    constructor
    · have := (deriveTarget_ok_elim hd).2.2
      rw [this]
      exact mem_setColByRow_cols _ _ _
    · intro hc
      rcases List.mem_cons.mp hc with hc | hc
      · exact hsl hc.symm
      · exact jobDynamicDrops_not_mem_label _ hc
  unfold jobFeatures
  simp only [hm, if_true]
  rw [hd, exceptBind_ok]
  rw [getColE_of_mem _ _ hmem, exceptBind_ok]

/-- The outcome column and every fixed drop-list column are absent from
the feature frame's column set, and absence of a drop-list column is
tolerated silently: whether the features stage succeeds depends only on
the outcome-column guard and the target derivation, never on which
drop-list columns exist. -/
theorem leakage_columns_never_in_features :
    (∀ df : Frame,
        okB (collegeFeatures df) = okB (deriveTarget df "grad_150_value" "high_grad_150"))
  ∧ (∀ (df : Frame) (c : String), okB (collegeFeatures df) = true →
        (c ∈ collegeDropCols ∨ c = "high_grad_150") →
        c ∉ featColsOf (collegeFeatures df))
  ∧ (∀ (df : Frame) (sc : String), sc ≠ "above_median_salary" →
        okB (jobFeatures sc df) =
          (decide (sc ∈ df.cols) && okB (deriveTarget df sc "above_median_salary")))
  ∧ (∀ (df : Frame) (sc : String), okB (jobFeatures sc df) = true →
        sc ∉ featColsOf (jobFeatures sc df) ∧
        "above_median_salary" ∉ featColsOf (jobFeatures sc df)) := by
  refine ⟨?_, ?_, ?_, ?_⟩
  · intro df
    cases hd : deriveTarget df "grad_150_value" "high_grad_150" with
    | error e =>
        unfold collegeFeatures
        rw [hd, exceptBind_error]
        rfl
    | ok d' =>
        rw [collegeFeatures_ok_of_target_ok hd]
        rfl
  · intro df c hok hc
    obtain ⟨⟨x, y⟩, hp⟩ := (okB_eq_true _).mp hok
    obtain ⟨d', hd, hx, hy⟩ := collegeFeatures_ok_elim hp
    rw [hp]
    show c ∉ x.cols
    rw [hx, mem_dropColsList_cols, mem_dropColsList_cols]
    intro hmem
    rcases hc with hc | hc
    · exact hmem.1.2 hc
    · exact hmem.2 (by rw [hc]; exact List.mem_singleton.mpr rfl)
  · intro df sc hsl
    by_cases hm : sc ∈ df.cols
    · cases hd : deriveTarget df sc "above_median_salary" with
      | error e =>
          unfold jobFeatures
          simp only [hm, if_true]
          rw [hd, exceptBind_error]
          simp [okB, hm]
      | ok d' =>
          rw [jobFeatures_ok_of_target_ok hsl hm hd]
          simp [okB, hm]
    · unfold jobFeatures
      simp only [hm, if_false]
      simp [okB, hm]
  · intro df sc hok
    obtain ⟨⟨x, y⟩, hp⟩ := (okB_eq_true _).mp hok
    obtain ⟨hmc, hsl, d', hd, hx, hy⟩ := jobFeatures_ok_elim hp
    rw [hp]
    constructor
    · show sc ∉ x.cols
      rw [hx, mem_dropColsList_cols, mem_dropColsList_cols]
      intro hmem
      exact hmem.1.2 (List.mem_cons_self _ _)
    · show "above_median_salary" ∉ x.cols
      rw [hx, mem_dropColsList_cols]
      intro hmem
      exact hmem.2 (List.mem_singleton.mpr rfl)

/-- The leakage theorem applied to concrete datasets: the derived-label
and outcome columns are gone from the feature set, and for a dataset
lacking every other drop-list column the stage still succeeds. -/
theorem leakage_columns_never_in_features_witness :
    ("grad_150_value" ∉ featColsOf (collegeFeatures dfCollege)) ∧
    ("unitid" ∉ featColsOf (collegeFeatures dfCollege)) ∧
    (okB (jobFeatures "salary" dfJob) =
      (decide ("salary" ∈ dfJob.cols) &&
        okB (deriveTarget dfJob "salary" "above_median_salary"))) ∧
    ("salary" ∉ featColsOf (jobFeatures "salary" dfJob) ∧
      "above_median_salary" ∉ featColsOf (jobFeatures "salary" dfJob)) :=
  ⟨leakage_columns_never_in_features.2.1 dfCollege "grad_150_value" (by decide)
      (Or.inl (by decide)),
   leakage_columns_never_in_features.2.1 dfCollege "unitid" (by decide)
      (Or.inl (by decide)),
   leakage_columns_never_in_features.2.2.1 dfJob "salary" (by decide),
   leakage_columns_never_in_features.2.2.2 dfJob "salary" (by decide)⟩

/-- A missing outcome column makes `job_train_test` fail with the
Configuration error naming the column, while the unguarded
`college_train_test` fails with the AttributeError-class error of the
raw column access. -/
theorem missing_outcome_column_errors :
    (∀ (df : Frame) (sc : String) (ts : ℚ) (seed : Nat), sc ∉ df.cols →
        job_train_test df sc ts seed = Except.error (PErr.config sc))
  ∧ (∀ (df : Frame) (ts : ℚ) (seed : Nat), "grad_150_value" ∉ df.cols →
        college_train_test df ts seed = Except.error (PErr.attributeError "grad_150_value")) := by
  constructor
  · intro df sc ts seed hm
    unfold job_train_test jobFeatures
    simp only [hm, if_false, exceptBind_error]
  · intro df ts seed hm
    unfold college_train_test collegeFeatures deriveTarget coerceCol
    simp only [hm, if_false, exceptBind_error]

/-- The missing-outcome theorem applied to a concrete dataset with
neither outcome column. -/
theorem missing_outcome_column_errors_witness :
    ("salary" ∉ dfNoOut.cols ∧
      job_train_test dfNoOut "salary" (1/5) 7 = Except.error (PErr.config "salary")) ∧
    ("grad_150_value" ∉ dfNoOut.cols ∧
      college_train_test dfNoOut (1/5) 7 =
        Except.error (PErr.attributeError "grad_150_value")) :=
  ⟨⟨by decide, missing_outcome_column_errors.1 dfNoOut "salary" (1/5) 7 (by decide)⟩,
   ⟨by decide, missing_outcome_column_errors.2 dfNoOut (1/5) 7 (by decide)⟩⟩

theorem countP_partition {α : Type} (l : List α) (p q : α → Bool)
    (h : ∀ x ∈ l, (p x = true ∧ q x = false) ∨ (p x = false ∧ q x = true)) :
    l.countP p + l.countP q = l.length := by
  induction l with
  | nil => rfl
  | cons a t ih =>
      have ht := ih (fun x hx => h x (List.mem_cons_of_mem a hx))
      rw [List.countP_cons, List.countP_cons, List.length_cons]
      rcases h a (List.mem_cons_self a t) with ⟨h1, h2⟩ | ⟨h1, h2⟩ <;>
        simp [h1, h2] <;> omega

/-- After the Target Deriver runs, every surviving record carries a
label that is 1 or 0 — the two label counts add up to the row count and
no record's label is missing. -/
theorem target_deriver_label_counts :
    ∀ (df : Frame) (out lab : String), okB (deriveTarget df out lab) = true →
      ((rowsOfE (deriveTarget df out lab)).countP
          (fun r => decide (r lab = Value.num 1)) +
       (rowsOfE (deriveTarget df out lab)).countP
          (fun r => decide (r lab = Value.num 0))
        = (rowsOfE (deriveTarget df out lab)).length)
      ∧ (rowsOfE (deriveTarget df out lab)).countP
          (fun r => decide (r lab = Value.na)) = 0 := by
  intro df out lab hok
  obtain ⟨d', hd⟩ := (okB_eq_true _).mp hok
  obtain ⟨hm, hsome, hset⟩ := deriveTarget_ok_elim hd
  rw [hd]
  have hrows : rowsOfE (Except.ok d') = d'.rows := rfl
  rw [hrows, hset, setColByRow_rows]
  constructor
  · rw [List.countP_map, List.countP_map]
    simp only [List.length_map]
    apply countP_partition
    intro r _
    by_cases hc : medD (preSplitVals df out) < qOf (r out)
    · left; constructor <;> simp [Function.comp, hc]
    · right; constructor <;> simp [Function.comp, hc]
  · rw [List.countP_map]
    rw [List.countP_eq_zero]
    intro r _
    simp [Function.comp]

/-- The label-count theorem applied to a concrete dataset. -/
theorem target_deriver_label_counts_witness :
    okB (deriveTarget dfCollege "grad_150_value" "high_grad_150") = true ∧
    ((rowsOfE (deriveTarget dfCollege "grad_150_value" "high_grad_150")).countP
        (fun r => decide (r "high_grad_150" = Value.num 1)) +
     (rowsOfE (deriveTarget dfCollege "grad_150_value" "high_grad_150")).countP
        (fun r => decide (r "high_grad_150" = Value.num 0))
      = (rowsOfE (deriveTarget dfCollege "grad_150_value" "high_grad_150")).length) ∧
    (rowsOfE (deriveTarget dfCollege "grad_150_value" "high_grad_150")).countP
        (fun r => decide (r "high_grad_150" = Value.na)) = 0 :=
  ⟨by decide,
   (target_deriver_label_counts dfCollege "grad_150_value" "high_grad_150" (by decide)).1,
   (target_deriver_label_counts dfCollege "grad_150_value" "high_grad_150" (by decide)).2⟩

/-- A category value seen at transform time that is not in the fit-time
vocabulary is encoded as the all-zero indicator vector, and every
transformed value — seen or unseen — produces exactly one entry per
fit-time vocabulary column, so no new column is ever added. -/
theorem unseen_category_zero_vector :
    ∀ (cf : CatFit) (v w : Value), v ≠ Value.na → v ∉ cf.vocab →
      catTransform cf v = List.replicate cf.vocab.length (0 : ℚ) ∧
      (catTransform cf w).length = cf.vocab.length := by
  intro cf v w hna hnv
  constructor
  · unfold catTransform
    simp only [hna, if_false]
    rw [List.eq_replicate_iff]
    refine ⟨List.length_map _ _, ?_⟩
    intro b hb
    rw [List.mem_map] at hb
    obtain ⟨c, hc, hbc⟩ := hb
    have hvc : v ≠ c := fun h => hnv (h ▸ hc)
    rw [← hbc, if_neg hvc]
  · unfold catTransform
    exact List.length_map _ _

/-- The unseen-category theorem applied to a concrete fitted vocabulary
and a concrete unseen value. -/
theorem unseen_category_zero_vector_witness :
    (Value.str "zz" ≠ Value.na) ∧
    (Value.str "zz" ∉ (catFitOf [Value.str "a", Value.str "b", Value.na]).vocab) ∧
    catTransform (catFitOf [Value.str "a", Value.str "b", Value.na]) (Value.str "zz")
      = List.replicate (catFitOf [Value.str "a", Value.str "b", Value.na]).vocab.length (0 : ℚ) ∧
    (catTransform (catFitOf [Value.str "a", Value.str "b", Value.na]) (Value.str "b")).length
      = (catFitOf [Value.str "a", Value.str "b", Value.na]).vocab.length :=
  ⟨by decide, by decide,
   (unseen_category_zero_vector (catFitOf [Value.str "a", Value.str "b", Value.na])
      (Value.str "zz") (Value.str "b") (by decide) (by decide)).1,
   (unseen_category_zero_vector (catFitOf [Value.str "a", Value.str "b", Value.na])
      (Value.str "zz") (Value.str "b") (by decide) (by decide)).2⟩

/-- The Numeric Transformer's scaling divisor is never zero, and a
column whose fit-time spread is zero deterministically falls back to
the no-op scale 1, so transforming reduces to centring alone. -/
theorem zero_spread_scale_guard :
    ∀ (vs : List Value) (v : Value),
      (numFitOf vs).scale ≠ 0 ∧
      (varQ (imputedNum vs) = 0 →
        (numFitOf vs).scale = 1 ∧
        numTransform (numFitOf vs) v
          = ((toQ? v).getD (numFitOf vs).impute) - (numFitOf vs).mean) := by
  intro vs v
  constructor
  · show (if varQ (imputedNum vs) = 0 then 1 else varQ (imputedNum vs)) ≠ 0
    by_cases h : varQ (imputedNum vs) = 0
    · rw [if_pos h]; exact one_ne_zero
    · rw [if_neg h]; exact h
  · intro h
    have hs : (numFitOf vs).scale = 1 := by
      show (if varQ (imputedNum vs) = 0 then 1 else varQ (imputedNum vs)) = 1
      rw [if_pos h]
    refine ⟨hs, ?_⟩
    unfold numTransform
    rw [hs, div_one]

/-- The zero-spread theorem applied to a concrete constant column. -/
theorem zero_spread_scale_guard_witness :
    varQ (imputedNum [Value.num 5, Value.num 5, Value.na]) = 0 ∧
    (numFitOf [Value.num 5, Value.num 5, Value.na]).scale = 1 ∧
    numTransform (numFitOf [Value.num 5, Value.num 5, Value.na]) (Value.num 7)
      = ((toQ? (Value.num 7)).getD (numFitOf [Value.num 5, Value.num 5, Value.na]).impute)
        - (numFitOf [Value.num 5, Value.num 5, Value.na]).mean := by
  have hv : varQ (imputedNum [Value.num 5, Value.num 5, Value.na]) = 0 := by
    simp [varQ, imputedNum, meanQ, med?, sortQ, insertSorted, toQ?]
    norm_num
  exact ⟨hv,
    ((zero_spread_scale_guard [Value.num 5, Value.num 5, Value.na] (Value.num 7)).2 hv).1,
    ((zero_spread_scale_guard [Value.num 5, Value.num 5, Value.na] (Value.num 7)).2 hv).2⟩

/-- Each orchestration entry point is a pure function of the input
frame, the test fraction and the seed: two invocations with identical
arguments return identical results, bit for bit. -/
theorem pipelines_deterministic :
    ∀ (df : Frame) (sc : String) (ts : ℚ) (seed : Nat),
      college_train_test df ts seed = college_train_test df ts seed ∧
      job_train_test df sc ts seed = job_train_test df sc ts seed :=
  fun _ _ _ _ => ⟨rfl, rfl⟩
theorem splitAndTransform_strat {X : Frame} {y : List Value} {ts : ℚ} {seed : Nat}
    (h : y.dedup.length < 2) :
    splitAndTransform X y ts seed = Except.error PErr.strat := by
  unfold splitAndTransform stratifiedSplit
  simp only [h, if_pos, exceptBind_error]

/-- When the derived label vector has fewer than two distinct classes,
the stratified Splitter fails and the whole pipeline call returns only
the Stratification error — no partial result. -/
theorem fewer_than_two_classes_strat_error :
    (∀ (df : Frame) (ts : ℚ) (seed : Nat), okB (collegeFeatures df) = true →
        (labelsOfF (collegeFeatures df)).dedup.length < 2 →
        college_train_test df ts seed = Except.error PErr.strat)
  ∧ (∀ (df : Frame) (sc : String) (ts : ℚ) (seed : Nat), okB (jobFeatures sc df) = true →
        (labelsOfF (jobFeatures sc df)).dedup.length < 2 →
        job_train_test df sc ts seed = Except.error PErr.strat) := by
  constructor
  · intro df ts seed hok hlen
    obtain ⟨⟨x, y⟩, hp⟩ := (okB_eq_true _).mp hok
    rw [hp] at hlen
    have hy : labelsOfF (Except.ok (x, y)) = y := rfl
    rw [hy] at hlen
    unfold college_train_test
    rw [hp, exceptBind_ok]
    exact splitAndTransform_strat hlen
  · intro df sc ts seed hok hlen
    obtain ⟨⟨x, y⟩, hp⟩ := (okB_eq_true _).mp hok
    rw [hp] at hlen
    have hy : labelsOfF (Except.ok (x, y)) = y := rfl
    rw [hy] at hlen
    unfold job_train_test
    rw [hp, exceptBind_ok]
    exact splitAndTransform_strat hlen

/-- The stratification-failure theorem applied to concrete single-class
datasets. -/
theorem fewer_than_two_classes_strat_error_witness :
    ((labelsOfF (collegeFeatures dfCollegeOne)).dedup.length < 2 ∧
      college_train_test dfCollegeOne (1/5) 3 = Except.error PErr.strat) ∧
    ((labelsOfF (jobFeatures "salary" dfJobOne)).dedup.length < 2 ∧
      job_train_test dfJobOne "salary" (1/5) 7 = Except.error PErr.strat) :=
  ⟨⟨by decide,
    fewer_than_two_classes_strat_error.1 dfCollegeOne (1/5) 3 (by decide) (by decide)⟩,
   ⟨by decide,
    fewer_than_two_classes_strat_error.2 dfJobOne "salary" (1/5) 7 (by decide) (by decide)⟩⟩

theorem transformRow_length (st : FitState) (r : Row) :
    (transformRow st r).length = rowWidth st := by
  unfold transformRow rowWidth
  rw [List.length_append, List.length_map, List.length_flatten, List.map_map]
  congr 1
  congr 1
  apply List.map_congr_left
  intro p _
  show (catTransform p.2 (r p.1)).length = p.2.vocab.length
  unfold catTransform
  exact List.length_map _ _

theorem allEqLengths_of_const {m : List (List ℚ)} {w : Nat}
    (h : ∀ s ∈ m, s.length = w) : allEqLengths m = true := by
  cases m with
  | nil => rfl
  | cons r rs =>
      unfold allEqLengths
      rw [List.all_eq_true]
      intro s hs
      rw [beq_iff_eq, h s (List.mem_cons_of_mem _ hs), h r (List.mem_cons_self _ _)]

theorem splitAndTransform_ok_widths {X : Frame} {y : List Value} {ts : ℚ} {seed : Nat}
    {res : PipeResult} (h : splitAndTransform X y ts seed = Except.ok res) :
    allEqLengths (res.trainX ++ res.testX) = true := by
  unfold splitAndTransform at h
  cases hs : stratifiedSplit ts seed y with
  | error e => rw [hs, exceptBind_error] at h; exact absurd h (by simp)
  | ok pr =>
      obtain ⟨tr, te⟩ := pr
      rw [hs, exceptBind_ok] at h
      simp only [Except.ok.injEq] at h
      rw [← h]
      apply allEqLengths_of_const
        (w := rowWidth (fitPre (selectRows X tr)
          (X.cols.filter (fun c => isNumericColumn (X.rows.map (fun r => r c))))
          (X.cols.filter (fun c => !isNumericColumn (X.rows.map (fun r => r c))))))
      intro s hs2
      rcases List.mem_append.mp hs2 with hs2 | hs2 <;>
      · obtain ⟨r, _, hr⟩ := List.mem_map.mp hs2
        rw [← hr, transformRow_length]

/-- Whenever a pipeline call succeeds, all rows of the returned train
and test feature matrices have the same number of entries: the output
schema is fixed by the state fitted on the training partition and
reused unchanged on the test partition. -/
theorem train_test_matrices_same_width :
    (∀ (df : Frame) (ts : ℚ) (seed : Nat), okB (college_train_test df ts seed) = true →
        allEqLengths (matricesOf (college_train_test df ts seed)) = true)
  ∧ (∀ (df : Frame) (sc : String) (ts : ℚ) (seed : Nat),
        okB (job_train_test df sc ts seed) = true →
        allEqLengths (matricesOf (job_train_test df sc ts seed)) = true) := by
  constructor
  · intro df ts seed hok
    obtain ⟨res, hr⟩ := (okB_eq_true _).mp hok
    cases hf : collegeFeatures df with
    | error e =>
        unfold college_train_test at hr
        rw [hf, exceptBind_error] at hr
        exact absurd hr (by simp)
    | ok p =>
        obtain ⟨x, y⟩ := p
        have hpipe : college_train_test df ts seed = splitAndTransform x y ts seed := by
          unfold college_train_test
          rw [hf, exceptBind_ok]
        rw [hpipe] at hr ⊢
        rw [hr]
        have : matricesOf (Except.ok res) = res.trainX ++ res.testX := rfl
        rw [this]
        exact splitAndTransform_ok_widths hr
  · intro df sc ts seed hok
    obtain ⟨res, hr⟩ := (okB_eq_true _).mp hok
    cases hf : jobFeatures sc df with
    | error e =>
        unfold job_train_test at hr
        rw [hf, exceptBind_error] at hr
        exact absurd hr (by simp)
    | ok p =>
        obtain ⟨x, y⟩ := p
        have hpipe : job_train_test df sc ts seed = splitAndTransform x y ts seed := by
          unfold job_train_test
          rw [hf, exceptBind_ok]
        rw [hpipe] at hr ⊢
        rw [hr]
        have : matricesOf (Except.ok res) = res.trainX ++ res.testX := rfl
        rw [this]
        exact splitAndTransform_ok_widths hr

/-- The equal-width theorem applied to concrete successful runs of both
pipelines. -/
theorem train_test_matrices_same_width_witness :
    (okB (college_train_test dfCollege (1/2) 0) = true ∧
      allEqLengths (matricesOf (college_train_test dfCollege (1/2) 0)) = true) ∧
    (okB (job_train_test dfJob "salary" (1/5) 42) = true ∧
      allEqLengths (matricesOf (job_train_test dfJob "salary" (1/5) 42)) = true) :=
  ⟨⟨by decide, train_test_matrices_same_width.1 dfCollege (1/2) 0 (by decide)⟩,
   ⟨by decide, train_test_matrices_same_width.2 dfJob "salary" (1/5) 42 (by decide)⟩⟩

/-- The job pipeline's dynamic drop rule removes a column exactly when
its whole lowercased name is `status` or `placed`; a feature column
whose name merely contains one of those words survives into the
feature set. -/
theorem dynamic_drop_exact_name_only :
    ∀ (df : Frame) (sc c : String), okB (jobFeatures sc df) = true →
      ((c ∈ df.cols → lowerStr c ≠ "status" → lowerStr c ≠ "placed" →
          c ≠ sc → c ≠ "above_median_salary" →
          c ∈ featColsOf (jobFeatures sc df))
      ∧ ((lowerStr c = "status" ∨ lowerStr c = "placed") →
          c ∉ featColsOf (jobFeatures sc df))) := by
  intro df sc c hok
  obtain ⟨⟨x, y⟩, hp⟩ := (okB_eq_true _).mp hok
  obtain ⟨hmc, hsl, d', hd, hx, hy⟩ := jobFeatures_ok_elim hp
  have hcols : featColsOf (jobFeatures sc df) = x.cols := by rw [hp]; rfl
  rw [hcols]
  have hdcols : ∀ e : String, e ∈ df.cols → e ∈ d'.cols := by
    intro e he
    have := (deriveTarget_ok_elim hd).2.2
    rw [this]
    exact mem_setColByRow_cols_of_mem _ _ _ _ he
  constructor
  · intro hcm hls hlp hcsc hclab
    rw [hx, mem_dropColsList_cols, mem_dropColsList_cols]
    refine ⟨⟨hdcols c hcm, ?_⟩, ?_⟩
    · intro hmem
      rcases List.mem_cons.mp hmem with hmem | hmem
      · exact hcsc hmem
      · unfold jobDynamicDrops at hmem
        rw [List.mem_filter, decide_eq_true_eq] at hmem
        rcases hmem.2 with hlow | hlow
        · exact hls hlow
        · exact hlp hlow
    · intro hmem
      exact hclab (List.mem_singleton.mp hmem)
  · intro hlow hmem
    rw [hx, mem_dropColsList_cols, mem_dropColsList_cols] at hmem
    apply hmem.1.2
    apply List.mem_cons_of_mem
    unfold jobDynamicDrops
    rw [List.mem_filter, decide_eq_true_eq]
    exact ⟨hmem.1.1, hlow⟩

/-- The dynamic-drop theorem applied to a concrete dataset holding a
column named exactly `Status` and one merely containing `status`. -/
theorem dynamic_drop_exact_name_only_witness :
    okB (jobFeatures "salary" dfJob) = true ∧
    "placement_status" ∈ featColsOf (jobFeatures "salary" dfJob) ∧
    "Status" ∉ featColsOf (jobFeatures "salary" dfJob) :=
  ⟨by decide,
   (dynamic_drop_exact_name_only dfJob "salary" "placement_status" (by decide)).1
      (by decide) (by decide) (by decide) (by decide) (by decide),
   (dynamic_drop_exact_name_only dfJob "salary" "Status" (by decide)).2
      (Or.inl (by decide))⟩
